import Mathlib

/-!
Verification of the format-normalization layer of the topic-modelling
postprocessing module (dariah_topics/postprocessing.py).

The Python source is shallowly embedded below: pandas DataFrames become
records of row lists plus index/column labels, numpy arrays become lists
or explicitly updated functions, file contents become lists of lines
(strings without trailing newlines), floats become rationals, and every
Python code path that can raise is embedded as an Except value carrying
the exception's name.
-/

namespace Postprocessing

instance {ε α : Type} [DecidableEq ε] [DecidableEq α] : DecidableEq (Except ε α) :=
  fun a b =>
    match a, b with
    | Except.error x, Except.error y =>
        if h : x = y then isTrue (by rw [h])
        else isFalse (by intro hc; cases hc; exact h rfl)
    | Except.ok x, Except.ok y =>
        if h : x = y then isTrue (by rw [h])
        else isFalse (by intro hc; cases hc; exact h rfl)
    | Except.error _, Except.ok _ => isFalse (by intro hc; cases hc)
    | Except.ok _, Except.error _ => isFalse (by intro hc; cases hc)

/-- Reference formulation of the chunking helper: peel n elements at a
time, padding the last chunk. Defined by well-founded recursion; the
executable embedding grouper below is proved equal to it. -/
def grouperRec {α : Type} (n : Nat) (l : List α) (fill : α) : List (List α) :=
  match n, l with
  | _, [] => []
  | 0, _ :: _ => []
  | Nat.succ m, x :: xs =>
      (List.take (m + 1) (x :: xs) ++ List.replicate ((m + 1) - (xs.length + 1)) fill)
        :: grouperRec (m + 1) (List.drop (m + 1) (x :: xs)) fill
termination_by l.length
decreasing_by simp [List.length_drop]; omega

theorem grouperRec_nil {α : Type} (n : Nat) (fill : α) : grouperRec n [] fill = [] := by
  cases n <;> rw [grouperRec]

theorem grouperRec_cons {α : Type} (m : Nat) (x : α) (xs : List α) (fill : α) :
    grouperRec (m + 1) (x :: xs) fill =
      (List.take (m + 1) (x :: xs) ++ List.replicate ((m + 1) - (xs.length + 1)) fill)
        :: grouperRec (m + 1) (List.drop (m + 1) (x :: xs)) fill := by
  rw [grouperRec]

theorem grouperRec_cons_of_ne_nil {α : Type} (m : Nat) (l : List α) (fill : α)
    (h : l ≠ []) :
    grouperRec (m + 1) l fill =
      (List.take (m + 1) l ++ List.replicate ((m + 1) - l.length) fill)
        :: grouperRec (m + 1) (List.drop (m + 1) l) fill := by
  match l with
  | [] => exact absurd rfl h
  | x :: xs => rw [grouperRec_cons]; rfl

/-- Structural worker for the chunking helper: cur is the current chunk,
reversed. -/
def grouperGo {α : Type} (n : Nat) (fill : α) : List α → List α → List (List α)
  | cur, [] =>
      match cur with
      | [] => []
      | _ :: _ => [cur.reverse ++ List.replicate (n - cur.length) fill]
  | cur, x :: xs =>
      if n ≤ cur.length + 1 then (cur.reverse ++ [x]) :: grouperGo n fill [] xs
      else grouperGo n fill (x :: cur) xs

/-- Embeds the private chunking helper of the source (it builds
itertools.zip_longest over n copies of a single iterator of the input):
the sequence is cut into blocks of n consecutive elements, the last block
padded with the fill value; with n = 0 the source yields no blocks. -/
def grouper {α : Type} (n : Nat) (l : List α) (fill : α) : List (List α) :=
  match n with
  | 0 => []
  | _ + 1 => grouperGo n fill [] l

theorem grouperGo_eq_grouperRec {α : Type} (m : Nat) (fill : α) :
    ∀ (l cur : List α), cur.length < m + 1 →
      grouperGo (m + 1) fill cur l = grouperRec (m + 1) (cur.reverse ++ l) fill := by
  intro l
  induction l with
  | nil =>
    intro cur hcur
    match hc : cur with
    | [] => simp [grouperGo, grouperRec_nil]
    | c :: cs =>
      rw [grouperGo]
      have hne : (c :: cs).reverse ++ [] ≠ [] := by simp
      rw [grouperRec_cons_of_ne_nil _ _ _ hne]
      have hlen : ((c :: cs).reverse ++ ([] : List α)).length = cs.length + 1 := by simp
      rw [List.take_of_length_le (by rw [hlen]; simp at hcur; omega),
        List.drop_eq_nil_of_le (by rw [hlen]; simp at hcur; omega),
        grouperRec_nil, hlen]
      simp at hcur
      simp
  | cons x xs ih =>
    intro cur hcur
    rw [grouperGo]
    rcases Nat.lt_or_ge (cur.length + 1) (m + 1) with hlt | hge
    · rw [if_neg (by omega)]
      rw [ih (x :: cur) (by simp; omega)]
      simp
    · have hlen : cur.length = m := by omega
      rw [if_pos (by omega)]
      have hne : cur.reverse ++ x :: xs ≠ [] := by simp
      rw [grouperRec_cons_of_ne_nil _ _ _ hne]
      have h1 : cur.reverse ++ x :: xs = (cur.reverse ++ [x]) ++ xs := by simp
      have hlenrev : (cur.reverse ++ [x]).length = m + 1 := by simp [hlen]
      rw [h1, List.take_append_of_le_length (by rw [hlenrev]),
        List.take_of_length_le (le_of_eq hlenrev),
        List.drop_append_of_le_length (by rw [hlenrev]),
        List.drop_eq_nil_of_le (le_of_eq hlenrev)]
      rw [ih [] (by simp)]
      simp [hlenrev]
      omega

theorem grouper_eq_grouperRec {α : Type} (n : Nat) (l : List α) (fill : α) :
    grouper n l fill = grouperRec n l fill := by
  match n with
  | 0 => cases l <;> rw [grouper, grouperRec]
  | m + 1 =>
    rw [grouper]
    rw [grouperGo_eq_grouperRec m fill l [] (by simp)]
    rfl

theorem grouper_nil {α : Type} (n : Nat) (fill : α) : grouper n [] fill = [] := by
  rw [grouper_eq_grouperRec, grouperRec_nil]

theorem grouper_cons {α : Type} (m : Nat) (x : α) (xs : List α) (fill : α) :
    grouper (m + 1) (x :: xs) fill =
      (List.take (m + 1) (x :: xs) ++ List.replicate ((m + 1) - (xs.length + 1)) fill)
        :: grouper (m + 1) (List.drop (m + 1) (x :: xs)) fill := by
  rw [grouper_eq_grouperRec, grouperRec_cons, grouper_eq_grouperRec]

theorem grouper_length_aux {α : Type} (m : Nat) :
    ∀ (N : Nat) (l : List α) (fill : α), l.length ≤ N →
      (grouper (m + 1) l fill).length = (l.length + (m + 1) - 1) / (m + 1) := by
  intro N
  induction N with
  | zero =>
    intro l fill h
    have hl : l = [] := List.eq_nil_of_length_eq_zero (Nat.le_zero.mp h)
    subst hl
    simp [grouper_nil, Nat.div_eq_of_lt (show m < m + 1 by omega)]
  | succ N ih =>
    intro l fill h
    match l with
    | [] => simp [grouper_nil, Nat.div_eq_of_lt (show m < m + 1 by omega)]
    | x :: xs =>
      rw [grouper_cons]
      have hd : (List.drop (m + 1) (x :: xs)).length ≤ N := by
        simp only [List.length_drop, List.length_cons]
        simp only [List.length_cons] at h
        omega
      have hrec := ih (List.drop (m + 1) (x :: xs)) fill hd
      simp only [List.length_cons, List.length_drop] at hrec ⊢
      rw [hrec]
      have h1 : xs.length + 1 + (m + 1) - 1 = xs.length + (m + 1) := by omega
      rw [h1, Nat.add_div_right _ (show 0 < m + 1 by omega)]
      rcases le_or_lt m xs.length with hle | hlt
      · have h2 : xs.length + 1 - (m + 1) + (m + 1) - 1 = xs.length := by omega
        rw [h2]
      · have h2 : xs.length + 1 - (m + 1) + (m + 1) - 1 = m := by omega
        rw [h2, Nat.div_eq_of_lt (show m < m + 1 by omega),
          Nat.div_eq_of_lt (show xs.length < m + 1 by omega)]

theorem grouper_chunk_length_aux {α : Type} (m : Nat) :
    ∀ (N : Nat) (l : List α) (fill : α), l.length ≤ N →
      ∀ c ∈ grouper (m + 1) l fill, c.length = m + 1 := by
  intro N
  induction N with
  | zero =>
    intro l fill h c hc
    have hl : l = [] := List.eq_nil_of_length_eq_zero (Nat.le_zero.mp h)
    subst hl
    simp [grouper_nil] at hc
  | succ N ih =>
    intro l fill h c hc
    match l with
    | [] => simp [grouper_nil] at hc
    | x :: xs =>
      rw [grouper_cons] at hc
      rcases List.mem_cons.mp hc with hc1 | hc2
      · subst hc1
        simp only [List.length_append, List.length_take, List.length_replicate,
          List.length_cons]
        omega
      · exact ih (List.drop (m + 1) (x :: xs)) fill
          (by simp only [List.length_drop, List.length_cons];
              simp only [List.length_cons] at h; omega) c hc2

theorem grouper_join_aux {α : Type} (m : Nat) :
    ∀ (N : Nat) (l : List α) (fill : α), l.length ≤ N →
      (grouper (m + 1) l fill).flatten =
        l ++ List.replicate (((m + 1) - l.length % (m + 1)) % (m + 1)) fill := by
  intro N
  induction N with
  | zero =>
    intro l fill h
    have hl : l = [] := List.eq_nil_of_length_eq_zero (Nat.le_zero.mp h)
    subst hl
    simp [grouper_nil, Nat.mod_self]
  | succ N ih =>
    intro l fill h
    match l with
    | [] => simp [grouper_nil, Nat.mod_self]
    | x :: xs =>
      rw [grouper_cons, List.flatten_cons]
      rcases le_or_lt (xs.length + 1) (m + 1) with hle | hlt
      · -- one (possibly padded) chunk: drop (m+1) is empty
        have hdrop : List.drop (m + 1) (x :: xs) = [] := by
          apply List.eq_nil_of_length_eq_zero
          simp only [List.length_drop, List.length_cons]
          omega
        have htake : List.take (m + 1) (x :: xs) = x :: xs :=
          List.take_of_length_le (by simp only [List.length_cons]; omega)
        rw [hdrop, htake, grouper_nil]
        simp only [List.length_cons]
        have hcount : (m + 1) - (xs.length + 1) =
            ((m + 1) - (xs.length + 1) % (m + 1)) % (m + 1) := by
          rcases Nat.lt_or_ge (xs.length + 1) (m + 1) with hlt2 | hge2
          · rw [Nat.mod_eq_of_lt hlt2,
              Nat.mod_eq_of_lt (by omega : (m + 1) - (xs.length + 1) < m + 1)]
          · have hone : xs.length + 1 = m + 1 := by omega
            rw [hone, Nat.mod_self, Nat.sub_zero, Nat.mod_self, Nat.sub_self]
        rw [hcount]
        simp
      · -- full chunk, recursion continues
        have hd : (List.drop (m + 1) (x :: xs)).length ≤ N := by
          simp only [List.length_drop, List.length_cons]
          simp only [List.length_cons] at h
          omega
        rw [ih (List.drop (m + 1) (x :: xs)) fill hd]
        have hpad : (m + 1) - (xs.length + 1) = 0 := by omega
        rw [hpad]
        simp only [List.replicate_zero, List.append_nil]
        rw [← List.append_assoc, List.take_append_drop]
        simp only [List.length_cons, List.length_drop, List.append_assoc]
        have hmod : (xs.length + 1 - (m + 1)) % (m + 1) = (xs.length + 1) % (m + 1) := by
          have hrw : xs.length + 1 = (xs.length + 1 - (m + 1)) + (m + 1) := by omega
          conv_rhs => rw [hrw]
          rw [Nat.add_mod_right]
        rw [hmod]

/-- C9: for a sequence of length L and group size N with N at least 1, the
chunking utility yields exactly ceil(L/N) chunks, every chunk has length N,
and the concatenation of the chunks is the original sequence followed by the
padding of the final chunk, which holds (N - L mod N) mod N fill elements:
the final chunk keeps the trailing L mod N elements (all N when L mod N = 0)
and every earlier chunk holds N consecutive original elements in order. -/
theorem grouper_spec {α : Type} (n : Nat) (l : List α) (fill : α) (hn : 1 ≤ n) :
    (grouper n l fill).length = (l.length + n - 1) / n ∧
    (∀ c ∈ grouper n l fill, c.length = n) ∧
    (grouper n l fill).flatten = l ++ List.replicate ((n - l.length % n) % n) fill := by
  obtain ⟨m, rfl⟩ : ∃ m, n = m + 1 := ⟨n - 1, by omega⟩
  exact ⟨grouper_length_aux m l.length l fill le_rfl,
    grouper_chunk_length_aux m l.length l fill le_rfl,
    grouper_join_aux m l.length l fill le_rfl⟩

theorem grouper_spec_witness :
    1 ≤ 2 ∧
      ((grouper 2 [1, 2, 3] 0).length = (([1, 2, 3] : List Nat).length + 2 - 1) / 2 ∧
      (∀ c ∈ grouper 2 [1, 2, 3] 0, c.length = 2) ∧
      (grouper 2 [1, 2, 3] 0).flatten =
        [1, 2, 3] ++ List.replicate ((2 - ([1, 2, 3] : List Nat).length % 2) % 2) 0) :=
  ⟨by decide, grouper_spec 2 [1, 2, 3] 0 (by decide)⟩

/-! ## Sparse Matrix Codec -/

/-- The fixed banner line of the coordinate-list (Matrix Market) writer. -/
def mmBanner : String := "%%MatrixMarket matrix coordinate real general"

/-- Three numbers joined by single spaces, as the source formats both the
header line and (via to_csv with a space separator) each data line. -/
def natTriple (a b c : Nat) : String :=
  toString a ++ " " ++ toString b ++ " " ++ toString c

/-- num_docs of the source: the pandas max over the document_id index level. -/
def maxDocumentId (entries : List ((Nat × Nat) × Nat)) : Nat :=
  (entries.map (fun e => e.1.1)).foldr max 0

/-- num_types of the source: the pandas max over the type_id index level. -/
def maxTypeId (entries : List ((Nat × Nat) × Nat)) : Nat :=
  (entries.map (fun e => e.1.2)).foldr max 0

/-- sum_counts of the source: the sum of the single value column. -/
def sumCounts (entries : List ((Nat × Nat) × Nat)) : Nat :=
  (entries.map (fun e => e.2)).sum

/-- Embeds the private matrix-market writer: a sparse document-term matrix
is a list of ((document_id, type_id), count) rows in matrix order; the
output is the list of written lines. -/
def save_matrix_market (entries : List ((Nat × Nat) × Nat)) : List String :=
  mmBanner ::
    natTriple (maxDocumentId entries) (maxTypeId entries) (sumCounts entries) ::
      entries.map (fun e => natTriple e.1.1 e.1.2 e.2)

theorem foldr_max_le_of_mem {l : List Nat} {x : Nat} (hx : x ∈ l) :
    x ≤ l.foldr max 0 := by
  induction l with
  | nil => cases hx
  | cons y ys ih =>
    rcases List.mem_cons.mp hx with h1 | h2
    · subst h1; exact le_max_left _ _
    · exact le_trans (ih h2) (le_max_right _ _)

theorem foldr_max_mem {l : List Nat} (h : l ≠ []) : l.foldr max 0 ∈ l := by
  induction l with
  | nil => exact absurd rfl h
  | cons y ys ih =>
    match ys with
    | [] => simp
    | z :: zs =>
      rw [List.foldr_cons]
      rcases max_choice y ((z :: zs).foldr max 0) with hm | hm
      · rw [hm]; exact List.mem_cons_self _ _
      · rw [hm]; exact List.mem_cons_of_mem _ (ih (by simp))

/-- C4: for a nonempty sparse document-term matrix, the coordinate-list
writer emits the banner line, then a header line holding the maximum
observed document id, the maximum observed type id, and the sum of all
stored values, then one space-separated line per entry; on the concrete
entries of the scenario the header line is "1 2 4" and 4 data lines follow. -/
theorem save_matrix_market_spec (entries : List ((Nat × Nat) × Nat))
    (h : entries ≠ []) :
    (save_matrix_market entries).length = 2 + entries.length ∧
    (save_matrix_market entries).getD 0 "" = mmBanner ∧
    (∃ a b, (∀ e ∈ entries, e.1.1 ≤ a ∧ e.1.2 ≤ b) ∧
      (∃ e1 ∈ entries, e1.1.1 = a) ∧ (∃ e2 ∈ entries, e2.1.2 = b) ∧
      (save_matrix_market entries).getD 1 "" =
        natTriple a b ((entries.map (fun e => e.2)).sum)) ∧
    (∀ i, i < entries.length →
      (save_matrix_market entries).getD (2 + i) "" =
        natTriple ((entries.getD i default).1.1) ((entries.getD i default).1.2)
          ((entries.getD i default).2)) ∧
    save_matrix_market [((0, 0), 1), ((0, 1), 1), ((1, 0), 1), ((1, 2), 1)] =
      [mmBanner, "1 2 4", "0 0 1", "0 1 1", "1 0 1", "1 2 1"] := by
  refine ⟨by simp only [save_matrix_market, List.length_cons, List.length_map]; omega,
    rfl, ?_, ?_, by decide⟩
  · refine ⟨maxDocumentId entries, maxTypeId entries, ?_, ?_, ?_, rfl⟩
    · intro e he
      exact ⟨foldr_max_le_of_mem (List.mem_map_of_mem _ he),
        foldr_max_le_of_mem (List.mem_map_of_mem _ he)⟩
    · have hmem : maxDocumentId entries ∈ entries.map (fun e => e.1.1) :=
        foldr_max_mem (by simpa using h)
      obtain ⟨e1, he1, heq⟩ := List.mem_map.mp hmem
      exact ⟨e1, he1, heq⟩
    · have hmem : maxTypeId entries ∈ entries.map (fun e => e.1.2) :=
        foldr_max_mem (by simpa using h)
      obtain ⟨e2, he2, heq⟩ := List.mem_map.mp hmem
      exact ⟨e2, he2, heq⟩
  · intro i hi
    have hi2 : i < (entries.map (fun e => natTriple e.1.1 e.1.2 e.2)).length := by
      simpa using hi
    rw [show 2 + i = i + 1 + 1 by omega]
    simp only [save_matrix_market, List.getD_cons_succ]
    rw [List.getD_eq_getElem _ _ hi2, List.getElem_map,
      List.getD_eq_getElem entries default hi]

theorem save_matrix_market_spec_witness :
    ([((0, 0), 1), ((0, 1), 1), ((1, 0), 1), ((1, 2), 1)] :
        List ((Nat × Nat) × Nat)) ≠ [] ∧
      save_matrix_market [((0, 0), 1), ((0, 1), 1), ((1, 0), 1), ((1, 2), 1)] =
        [mmBanner, "1 2 4", "0 0 1", "0 1 1", "1 0 1", "1 2 1"] :=
  ⟨by decide,
    (save_matrix_market_spec [((0, 0), 1), ((0, 1), 1), ((1, 0), 1), ((1, 2), 1)]
      (by decide)).2.2.2.2⟩

/-! ## save_document_term_matrix -/

/-- The files the save entry point can write. -/
inductive SavedFile
  | matrixCsv
  | documentIdsCsv (ids : List (String × Nat))
  | typeIdsCsv (ids : List (String × Nat))
  | matrixMm (lines : List String)
deriving DecidableEq

/-- Python truthiness of the optional document_ids dict: None and the empty
dict are falsy. -/
def dictTruthy (o : Option (List (String × Nat))) : Bool :=
  match o with
  | some (_ :: _) => true
  | _ => false

/-- Embeds save_document_term_matrix. The matrix is carried as its
MultiIndex flag plus its sparse entries (used only by the matrix-market
writer); the result is the list of files written, or the raised error.
The source checks document_ids by truthiness but type_ids only against
None ("if document_ids and type_ids is not None"). -/
def save_document_term_matrix (isMultiIndex : Bool)
    (entries : List ((Nat × Nat) × Nat))
    (document_ids type_ids : Option (List (String × Nat)))
    (matrix_market : Bool) : Except String (List SavedFile) :=
  let csvFiles : List SavedFile :=
    if matrix_market then [] else [SavedFile.matrixCsv]
  if isMultiIndex && !matrix_market then
    if dictTruthy document_ids && type_ids.isSome then
      Except.ok (csvFiles ++
        [SavedFile.documentIdsCsv (document_ids.getD []),
         SavedFile.typeIdsCsv (type_ids.getD [])])
    else
      Except.error "ValueError: You have to pass document_ids and type_ids as parameters."
  else if isMultiIndex && matrix_market then
    Except.ok (csvFiles ++ [SavedFile.matrixMm (save_matrix_market entries)])
  else
    Except.ok csvFiles

/-- C8 counterexample: a sparse (MultiIndex) save in the non-market mode
with BOTH auxiliary maps supplied still raises the ValueError when the
supplied document_ids dict is empty (Python truthiness), so "when both are
supplied both maps are written" fails as stated. -/
theorem save_document_term_matrix_counterexample :
    save_document_term_matrix true [((0, 0), 1)] (some []) (some [("a", 0)]) false =
      Except.error "ValueError: You have to pass document_ids and type_ids as parameters." :=
  rfl

/-- C8 amended: in the sparse non-market mode, the save raises the
ValueError whenever document_ids is missing or empty or type_ids is
missing; when document_ids is supplied nonempty and type_ids is supplied
(even empty), the matrix CSV and both label-id maps are written. -/
theorem save_document_term_matrix_ids (entries entries2 : List ((Nat × Nat) × Nat))
    (document_ids type_ids : Option (List (String × Nat)))
    (d : String × Nat) (ds : List (String × Nat)) (tids : List (String × Nat))
    (hbad : document_ids = none ∨ document_ids = some [] ∨ type_ids = none) :
    (save_document_term_matrix true entries document_ids type_ids false =
      Except.error "ValueError: You have to pass document_ids and type_ids as parameters.") ∧
    (save_document_term_matrix true entries2 (some (d :: ds)) (some tids) false =
      Except.ok [SavedFile.matrixCsv, SavedFile.documentIdsCsv (d :: ds),
        SavedFile.typeIdsCsv tids]) := by
  refine ⟨?_, rfl⟩
  rcases hbad with h | h | h <;> subst h <;>
    first
      | rfl
      | (cases document_ids with
          | none => rfl
          | some l => cases l <;> rfl)

theorem save_document_term_matrix_ids_witness :
    ((some [] : Option (List (String × Nat))) = none ∨
        (some [] : Option (List (String × Nat))) = some [] ∨
        (some [("t", 1)] : Option (List (String × Nat))) = none) ∧
      ((save_document_term_matrix true [] (some []) (some [("t", 1)]) false =
        Except.error "ValueError: You have to pass document_ids and type_ids as parameters.") ∧
      (save_document_term_matrix true [] (some [("a", 0)]) (some [("t", 1)]) false =
        Except.ok [SavedFile.matrixCsv, SavedFile.documentIdsCsv [("a", 0)],
          SavedFile.typeIdsCsv [("t", 1)]])) :=
  ⟨Or.inr (Or.inl rfl),
    save_document_term_matrix_ids [] [] (some []) (some [("t", 1)])
      ("a", 0) [] [("t", 1)] (Or.inr (Or.inl rfl))⟩

/-- C10: calling the save with matrix_market = True on a matrix whose index
is not a MultiIndex writes no file at all (neither the CSV, which the
matrix_market flag suppresses, nor the .mm file, which the dense index
suppresses) and returns without error. -/
theorem save_document_term_matrix_dense_market (entries : List ((Nat × Nat) × Nat))
    (document_ids type_ids : Option (List (String × Nat))) :
    save_document_term_matrix false entries document_ids type_ids true =
      Except.ok [] := rfl

/-! ## Character-level string helpers

Python string primitives (split, strip, startswith, int parsing) are
modelled by structural recursion over the character list of the string so
that concrete runs reduce inside the kernel. -/

/-- Python s.split(sep) for a one-character separator: runs are not
collapsed and the empty string yields one empty field. -/
def splitCharList (sep : Char) : List Char → List (List Char)
  | [] => [[]]
  | c :: cs =>
      let r := splitCharList sep cs
      if c = sep then [] :: r
      else
        match r with
        | [] => [[c]]
        | g :: gs => (c :: g) :: gs

/-- Python s.split(sep) on a string, one-character separator. -/
def splitOnChar (sep : Char) (s : String) : List String :=
  (splitCharList sep s.data).map (fun cs => String.mk cs)

/-- Python str.rstrip(): drop trailing whitespace. -/
def rstrip (s : String) : String :=
  String.mk ((s.data.reverse.dropWhile (fun c => c.isWhitespace)).reverse)

/-- Python str.lstrip(): drop leading whitespace. -/
def lstrip (s : String) : String :=
  String.mk (s.data.dropWhile (fun c => c.isWhitespace))

/-- Python s.startswith(pre). -/
def strStartsWith (s pre : String) : Bool :=
  pre.data.isPrefixOf s.data

def parseNatAux : List Char → Nat → Option Nat
  | [], acc => some acc
  | c :: cs, acc =>
      if c.isDigit then parseNatAux cs (acc * 10 + (c.toNat - 48)) else none

def parseNatList : List Char → Option Nat
  | [] => none
  | l => parseNatAux l 0

/-- Python int(s) restricted to an optional sign and decimal digits. -/
def parseInt? (s : String) : Option Int :=
  match s.data with
  | '-' :: rest => (parseNatList rest).map (fun n => -(n : Int))
  | '+' :: rest => (parseNatList rest).map (fun n => (n : Int))
  | l => (parseNatList l).map (fun n => (n : Int))

/-- Python float(s) restricted to plain decimal notation, as a rational. -/
def parseRat? (s : String) : Option ℚ :=
  let core := fun (t : List Char) =>
    match splitCharList '.' t with
    | [a] => (parseNatList a).map (fun n => (n : ℚ))
    | [a, b] =>
        match parseNatList a, parseNatList b with
        | some n, some m => some ((n : ℚ) + (m : ℚ) / ((10 : ℚ) ^ b.length))
        | _, _ => none
    | _ => none
  match s.data with
  | '-' :: rest => (core rest).map (fun q => -q)
  | '+' :: rest => core rest
  | l => core l

/-! ## Canonical topic tables -/

/-- A pandas DataFrame of strings: rows plus index and column labels. -/
structure TopicTable where
  rows : List (List String)
  index : List String
  cols : List String
deriving DecidableEq

/-- The ascending order used to model numpy argsort on a topic row: sort
the (weight, position) pairs by weight, equal weights ordered by their
original position (the deterministic model of a stable ascending argsort). -/
def pairLE (p q : ℚ × Nat) : Prop := p.1 < q.1 ∨ (p.1 = q.1 ∧ p.2 ≤ q.2)

instance : DecidableRel pairLE := fun p q => by unfold pairLE; infer_instance

instance : IsTotal (ℚ × Nat) pairLE :=
  ⟨by
    intro p q
    unfold pairLE
    rcases lt_trichotomy p.1 q.1 with h | h | h
    · exact Or.inl (Or.inl h)
    · rcases le_total p.2 q.2 with h2 | h2
      · exact Or.inl (Or.inr ⟨h, h2⟩)
      · exact Or.inr (Or.inr ⟨h.symm, h2⟩)
    · exact Or.inr (Or.inl h)⟩

instance : IsTrans (ℚ × Nat) pairLE :=
  ⟨by
    intro a b c hab hbc
    unfold pairLE at *
    rcases hab with h1 | ⟨h1, h1b⟩ <;> rcases hbc with h2 | ⟨h2, h2b⟩
    · exact Or.inl (lt_trans h1 h2)
    · exact Or.inl (h2 ▸ h1)
    · exact Or.inl (h1 ▸ h2)
    · exact Or.inr ⟨h1.trans h2, le_trans h1b h2b⟩⟩

/-- The (weight, position) pairs of a topic row, sorted ascending. -/
def sortedPairs (dist : List ℚ) : List (ℚ × Nat) :=
  (dist.enum.map (fun p => (p.2, p.1))).insertionSort pairLE

/-- Embeds np.argsort(topic_distribution): positions ordered by ascending
weight. -/
def argsort (dist : List ℚ) : List Nat :=
  (sortedPairs dist).map Prod.snd

/-- Embeds one topic row of the lda adapter:
np.array(vocabulary)[np.argsort(dist)][:-num_keys-1:-1], i.e. the argsort
permutation of the vocabulary, reversed, truncated to num_keys. -/
def lda_topic_row (vocabulary : List String) (dist : List ℚ) (num_keys : Nat) :
    List String :=
  (((argsort dist).map (fun i => vocabulary.getD i "")).reverse).take num_keys

/-- Embeds the lda topics adapter. -/
def show_lda_topics (topic_word : List (List ℚ)) (vocabulary : List String)
    (num_keys : Nat) : TopicTable :=
  let topics := topic_word.map (fun dist => lda_topic_row vocabulary dist num_keys)
  { rows := topics
    index := (List.range topics.length).map (fun n => "Topic " ++ toString n)
    cols := (List.range num_keys).map (fun n => "Key " ++ toString n) }

/-- Embeds the gensim topics adapter; the model's
show_topics(formatted=False, num_words=num_keys) reply is its input. -/
def show_gensim_topics (shown : List (Nat × List (String × ℚ))) (num_keys : Nat) :
    TopicTable :=
  let topics := shown.map (fun p => p.2.map Prod.fst)
  { rows := topics
    index := (List.range topics.length).map (fun n => "Topic " ++ toString n)
    cols := (List.range num_keys).map (fun n => "Key " ++ toString n) }

/-- One line of the MALLET topic-keys file: the source unpacks
line.split(tab) into exactly three fields and splits the stripped third
field on single spaces. -/
def parse_topic_keys_line (line : String) : Except String (List String) :=
  match splitOnChar '\t' line with
  | [_, _, keys] => Except.ok (splitOnChar ' ' (rstrip keys))
  | _ => Except.error "ValueError: topic keys line does not unpack into three fields"

/-- All topic-keys lines in order; the first failing line aborts, as the
raised exception would. -/
def parse_topic_keys : List String → Except String (List (List String))
  | [] => Except.ok []
  | l :: ls =>
      match parse_topic_keys_line l with
      | Except.error e => Except.error e
      | Except.ok keys =>
          match parse_topic_keys ls with
          | Except.error e => Except.error e
          | Except.ok rest => Except.ok (keys :: rest)

/-- Embeds the MALLET topics adapter: the requested key count never reaches
it; the column labels are sized by the first line's key list (topics[0],
an IndexError on an empty file). -/
def show_mallet_topics (lines : List String) : Except String TopicTable :=
  match parse_topic_keys lines with
  | Except.error e => Except.error e
  | Except.ok [] => Except.error "IndexError: list index out of range"
  | Except.ok (t0 :: ts) =>
      Except.ok
        { rows := t0 :: ts
          index := (List.range (t0 :: ts).length).map (fun n => "Topic " ++ toString n)
          cols := (List.range t0.length).map (fun n => "Key " ++ toString n) }

/-- The probabilistic (gensim) model as the source consumes it: a topic
count plus its two reply methods. LdaModel and LdaMulticore behave
identically here. -/
structure GensimModelE where
  num_topics : Nat
  show_topics_fn : Nat → List (Nat × List (String × ℚ))
  get_document_topics : List (Nat × Nat) → List (Nat × ℚ)

/-- A model argument whose runtime type the dispatch inspects: either an
lda model (field arrays topic_word_ and doc_topic_) or a gensim model. -/
inductive ModelArg
  | lda (topic_word : List (List ℚ)) (doc_topic : List (List ℚ))
  | gensim (m : GensimModelE)

/-- Embeds the show_topics dispatch: isinstance(model, LDA) first, then
the gensim types, then the file path; nothing raises on ambiguous or
empty argument combinations — the final implicit branch returns None. -/
def show_topics (model : Option ModelArg) (vocabulary : Option (List String))
    (topic_keys_file : Option (List String)) (num_keys : Nat) :
    Except String (Option TopicTable) :=
  match model with
  | some (ModelArg.lda topic_word _) =>
      match vocabulary with
      | some v => Except.ok (some (show_lda_topics topic_word v num_keys))
      | none => Except.error "IndexError: vocabulary is None"
  | some (ModelArg.gensim m) =>
      Except.ok (some (show_gensim_topics (m.show_topics_fn num_keys) num_keys))
  | none =>
      match topic_keys_file with
      | some lines =>
          match show_mallet_topics lines with
          | Except.error e => Except.error e
          | Except.ok t => Except.ok (some t)
      | none => Except.ok none

theorem sortedPairs_perm (dist : List ℚ) :
    (sortedPairs dist).Perm (dist.enum.map (fun p => (p.2, p.1))) :=
  List.perm_insertionSort _ _

theorem argsort_perm (dist : List ℚ) :
    (argsort dist).Perm (List.range dist.length) := by
  have h1 := (sortedPairs_perm dist).map Prod.snd
  have h2 : (dist.enum.map (fun p => (p.2, p.1))).map Prod.snd =
      List.range dist.length := by
    rw [List.map_map]
    have h3 : (Prod.snd ∘ fun p : Nat × ℚ => (p.2, p.1)) = Prod.fst := rfl
    rw [h3, List.enum_map_fst]
  rwa [h2] at h1

theorem argsort_length (dist : List ℚ) : (argsort dist).length = dist.length :=
  ((argsort_perm dist).length_eq).trans (List.length_range _)

theorem mem_sortedPairs_val {dist : List ℚ} {p : ℚ × Nat}
    (hp : p ∈ sortedPairs dist) : dist.getD p.2 0 = p.1 := by
  have hp2 : p ∈ dist.enum.map (fun q => (q.2, q.1)) :=
    (sortedPairs_perm dist).mem_iff.mp hp
  obtain ⟨q, hq, hqe⟩ := List.mem_map.mp hp2
  cases hqe
  have hget : dist[q.1]? = some q.2 := List.mem_enum_iff_getElem?.mp hq
  obtain ⟨hlt, hval⟩ := List.getElem?_eq_some.mp hget
  rw [List.getD_eq_getElem _ _ hlt]
  exact hval

/-- C5 amended: the lda adapter's row is the first num_keys vocabulary
entries along a ranking of all positions that is sorted by weight
descending with ties broken by REVERSE vocabulary order — the source
reverses an ascending argsort, so equal weights come out with the later
vocabulary entry first, not in original vocabulary order. -/
theorem lda_topic_row_ranking (vocabulary : List String) (dist : List ℚ)
    (num_keys : Nat) (hlen : dist.length = vocabulary.length) :
    ∃ ranking : List Nat,
      ranking.Perm (List.range vocabulary.length) ∧
      List.Pairwise (fun i j => dist.getD j 0 < dist.getD i 0 ∨
        (dist.getD i 0 = dist.getD j 0 ∧ j < i)) ranking ∧
      lda_topic_row vocabulary dist num_keys =
        (ranking.take num_keys).map (fun i => vocabulary.getD i "") := by
  refine ⟨(argsort dist).reverse, ?_, ?_, ?_⟩
  · have h := (List.reverse_perm (argsort dist)).trans (argsort_perm dist)
    rwa [hlen] at h
  · have hsorted : List.Sorted pairLE (sortedPairs dist) :=
      List.sorted_insertionSort _ _
    have hrev : List.Pairwise (fun p q => pairLE q p) (sortedPairs dist).reverse :=
      List.pairwise_reverse.mpr hsorted
    have hnd : ((sortedPairs dist).reverse.map Prod.snd).Nodup := by
      rw [List.map_reverse, List.nodup_reverse]
      exact ((argsort_perm dist).nodup_iff).mpr (List.nodup_range _)
    have hsnd : List.Pairwise (fun p q : ℚ × Nat => p.2 ≠ q.2)
        (sortedPairs dist).reverse := List.pairwise_map.mp hnd
    have hcomb := hrev.and hsnd
    have hgoal : List.Pairwise
        (fun p q : ℚ × Nat => dist.getD q.2 0 < dist.getD p.2 0 ∨
          (dist.getD p.2 0 = dist.getD q.2 0 ∧ q.2 < p.2))
        (sortedPairs dist).reverse := by
      refine hcomb.imp_of_mem ?_
      intro p q hpmem hqmem hpq
      have hpv : dist.getD p.2 0 = p.1 :=
        mem_sortedPairs_val (List.mem_reverse.mp hpmem)
      have hqv : dist.getD q.2 0 = q.1 :=
        mem_sortedPairs_val (List.mem_reverse.mp hqmem)
      rcases hpq.1 with hlt | ⟨heq, hle⟩
      · left; rw [hpv, hqv]; exact hlt
      · right
        refine ⟨by rw [hpv, hqv, heq], lt_of_le_of_ne hle (fun he => hpq.2 he.symm)⟩
    have hrw : (argsort dist).reverse = (sortedPairs dist).reverse.map Prod.snd := by
      unfold argsort
      rw [List.map_reverse]
    rw [hrw]
    exact List.pairwise_map.mpr hgoal
  · unfold lda_topic_row argsort
    rw [← List.map_reverse, ← List.map_take]

theorem lda_topic_row_ranking_witness :
    (([1, 2] : List ℚ).length = (["a", "b"] : List String).length) ∧
      (∃ ranking : List Nat,
        ranking.Perm (List.range (["a", "b"] : List String).length) ∧
        List.Pairwise (fun i j => ([1, 2] : List ℚ).getD j 0 < ([1, 2] : List ℚ).getD i 0 ∨
          (([1, 2] : List ℚ).getD i 0 = ([1, 2] : List ℚ).getD j 0 ∧ j < i)) ranking ∧
        lda_topic_row ["a", "b"] [1, 2] 1 =
          (ranking.take 1).map (fun i => (["a", "b"] : List String).getD i "")) :=
  ⟨rfl, lda_topic_row_ranking ["a", "b"] [1, 2] 1 rfl⟩

/-- Modelled from the spec's words, for comparison with the source: select
the top num_keys entries by weight descending, ties broken by original
vocabulary order (a stable descending selection). -/
def specDescLE (p q : ℚ × Nat) : Prop := q.1 < p.1 ∨ (p.1 = q.1 ∧ p.2 ≤ q.2)

instance : DecidableRel specDescLE := fun p q => by unfold specDescLE; infer_instance

def spec_top_keys (vocabulary : List String) (dist : List ℚ) (num_keys : Nat) :
    List String :=
  ((((dist.enum.map (fun p => (p.2, p.1))).insertionSort specDescLE).map
    Prod.snd).take num_keys).map (fun i => vocabulary.getD i "")

/-- C5 counterexample: on two equal weights the source returns the keys in
reverse vocabulary order, not the original vocabulary order the claim
states. -/
theorem lda_topic_row_counterexample :
    lda_topic_row ["a", "b"] [1, 1] 2 = ["b", "a"] ∧
    spec_top_keys ["a", "b"] [1, 1] 2 = ["a", "b"] ∧
    lda_topic_row ["a", "b"] [1, 1] 2 ≠ spec_top_keys ["a", "b"] [1, 1] 2 := by
  decide

theorem parse_topic_keys_length :
    ∀ {lines : List String} {ts : List (List String)},
      parse_topic_keys lines = Except.ok ts → ts.length = lines.length := by
  intro lines
  induction lines with
  | nil =>
    intro ts h
    simp only [parse_topic_keys] at h
    cases h
    rfl
  | cons l ls ih =>
    intro ts h
    simp only [parse_topic_keys] at h
    cases hline : parse_topic_keys_line l with
    | error e => rw [hline] at h; cases h
    | ok keys =>
      rw [hline] at h
      cases hrest : parse_topic_keys ls with
      | error e => rw [hrest] at h; cases h
      | ok rest =>
        rw [hrest] at h
        cases h
        simp [ih hrest]

/-- C1 amended: the lda and gensim adapters produce T rows and num_keys
columns (for lda under num_keys at most the vocabulary size and rows of
vocabulary length; for gensim when the model returns num_keys words per
topic), but the MALLET adapter ignores the requested key count: its column
count is the key count of the FIRST topic line of the file. -/
theorem show_topics_shape (topic_word : List (List ℚ)) (vocabulary : List String)
    (k1 : Nat) (shown : List (Nat × List (String × ℚ))) (k2 : Nat)
    (lines : List String) (t : TopicTable)
    (h1 : ∀ dist ∈ topic_word, dist.length = vocabulary.length)
    (h2 : k1 ≤ vocabulary.length)
    (h3 : ∀ p ∈ shown, p.2.length = k2)
    (h4 : show_mallet_topics lines = Except.ok t) :
    ((show_lda_topics topic_word vocabulary k1).rows.length = topic_word.length ∧
      (∀ r ∈ (show_lda_topics topic_word vocabulary k1).rows, r.length = k1) ∧
      (show_lda_topics topic_word vocabulary k1).cols.length = k1) ∧
    ((show_gensim_topics shown k2).rows.length = shown.length ∧
      (∀ r ∈ (show_gensim_topics shown k2).rows, r.length = k2) ∧
      (show_gensim_topics shown k2).cols.length = k2) ∧
    (t.rows.length = lines.length ∧
      t.cols.length = (t.rows.headD []).length) := by
  refine ⟨⟨by simp [show_lda_topics], ?_, by simp [show_lda_topics]⟩,
    ⟨by simp [show_gensim_topics], ?_, by simp [show_gensim_topics]⟩, ?_⟩
  · intro r hr
    simp only [show_lda_topics, List.mem_map] at hr
    obtain ⟨dist, hdist, hrow⟩ := hr
    subst hrow
    unfold lda_topic_row
    rw [List.length_take, List.length_reverse, List.length_map, argsort_length,
      h1 dist hdist]
    exact Nat.min_eq_left h2
  · intro r hr
    simp only [show_gensim_topics, List.mem_map] at hr
    obtain ⟨p, hp, hrow⟩ := hr
    subst hrow
    rw [List.length_map]
    exact h3 p hp
  · unfold show_mallet_topics at h4
    cases hp : parse_topic_keys lines with
    | error e => rw [hp] at h4; cases h4
    | ok ts =>
      rw [hp] at h4
      cases ts with
      | nil => cases h4
      | cons t0 ts2 =>
        cases h4
        constructor
        · simpa using parse_topic_keys_length hp
        · simp

theorem show_topics_shape_witness :
    ((∀ dist ∈ ([[1, 2]] : List (List ℚ)), dist.length = (["a", "b"] : List String).length) ∧
      1 ≤ (["a", "b"] : List String).length ∧
      (∀ p ∈ ([(0, [("x", (1 : ℚ))])] : List (Nat × List (String × ℚ))), p.2.length = 1) ∧
      show_mallet_topics ["0\t0.5\ta b"] = Except.ok
        { rows := [["a", "b"]], index := ["Topic 0"], cols := ["Key 0", "Key 1"] }) ∧
    (((show_lda_topics [[1, 2]] ["a", "b"] 1).rows.length = ([[1, 2]] : List (List ℚ)).length ∧
      (∀ r ∈ (show_lda_topics [[1, 2]] ["a", "b"] 1).rows, r.length = 1) ∧
      (show_lda_topics [[1, 2]] ["a", "b"] 1).cols.length = 1) ∧
    ((show_gensim_topics [(0, [("x", 1)])] 1).rows.length =
        ([(0, [("x", (1 : ℚ))])] : List (Nat × List (String × ℚ))).length ∧
      (∀ r ∈ (show_gensim_topics [(0, [("x", 1)])] 1).rows, r.length = 1) ∧
      (show_gensim_topics [(0, [("x", 1)])] 1).cols.length = 1) ∧
    (({ rows := [["a", "b"]], index := ["Topic 0"], cols := ["Key 0", "Key 1"]} :
        TopicTable).rows.length = (["0\t0.5\ta b"] : List String).length ∧
      ({ rows := [["a", "b"]], index := ["Topic 0"], cols := ["Key 0", "Key 1"]} :
        TopicTable).cols.length =
        (({ rows := [["a", "b"]], index := ["Topic 0"], cols := ["Key 0", "Key 1"]} :
          TopicTable).rows.headD []).length)) :=
  ⟨⟨by decide, by decide, by decide, by decide⟩,
    show_topics_shape [[1, 2]] ["a", "b"] 1 [(0, [("x", 1)])] 1 ["0\t0.5\ta b"]
      { rows := [["a", "b"]], index := ["Topic 0"], cols := ["Key 0", "Key 1"] }
      (by decide) (by decide) (by decide) (by decide)⟩

/-- C1 counterexample: through the show_topics dispatch, a MALLET
topic-keys file whose first line carries three keys yields a table with
three columns although num_keys = 2 was requested. -/
theorem show_topics_num_keys_counterexample :
    show_topics none none (some ["0\t0.5\ta b c", "1\t0.5\td e f"]) 2 =
      Except.ok (some
        { rows := [["a", "b", "c"], ["d", "e", "f"]]
          index := ["Topic 0", "Topic 1"]
          cols := ["Key 0", "Key 1", "Key 2"] }) ∧
    (["Key 0", "Key 1", "Key 2"] : List String).length ≠ 2 := by
  decide

/-! ## MALLET document-topics adapter -/

/-- os.path.basename for POSIX paths. -/
def basenameStr (s : String) : String := (splitOnChar '/' s).getLastD s

/-- The stem part of os.path.splitext: cut at the last dot unless every
character before it is itself a dot (so dotfiles keep their name). -/
def splitextStem (s : String) : String :=
  let cs := s.data
  let dotPositions := (List.range cs.length).filter (fun i => cs.getD i ' ' = '.')
  match dotPositions.getLast? with
  | none => s
  | some p =>
      if (List.range p).all (fun i => cs.getD i ' ' = '.') then s
      else String.mk (cs.take p)

/-- os.path.splitext(os.path.basename(label))[0], the label stripping both
MALLET adapters apply. -/
def strip_label (s : String) : String := splitextStem (basenameStr s)

/-- One (topic, share) chunk of the sparse layout, as the loop body
evaluates it: int(topic) first, then float(share); the None padding of an
odd-length value list is a TypeError inside float(). -/
def parse_pair (chunk : List (Option String)) : Except String (Int × ℚ) :=
  match chunk with
  | [some t, sh] =>
      match parseInt? t with
      | none => Except.error "ValueError: invalid literal for int"
      | some ti =>
          match sh with
          | none => Except.error "TypeError: float() argument must be a string or a number"
          | some s =>
              match parseRat? s with
              | none => Except.error "ValueError: could not convert string to float"
              | some q => Except.ok (ti, q)
  | _ => Except.error "ValueError: malformed pair"

def parse_pairs : List (List (Option String)) → Except String (List (Int × ℚ))
  | [] => Except.ok []
  | c :: cs =>
      match parse_pair c with
      | Except.error e => Except.error e
      | Except.ok p =>
          match parse_pairs cs with
          | Except.error e => Except.error e
          | Except.ok ps => Except.ok (p :: ps)

/-- One data line of the sparse layout: line.rstrip().split(tab) unpacks
into doc number, raw document label (kept raw in the triples) and the
remaining values, chunked in twos by the grouper. Returns the raw label,
the stripped label (appended to document_labels) and the parsed pairs. -/
def parse_doc_topics_line (line : String) :
    Except String (String × String × List (Int × ℚ)) :=
  match splitOnChar '\t' (rstrip line) with
  | _ :: document_label :: values =>
      match parse_pairs (grouper 2 (values.map (fun v => some v)) none) with
      | Except.error e => Except.error e
      | Except.ok pairs =>
          Except.ok (document_label, strip_label document_label, pairs)
  | _ => Except.error "ValueError: not enough values to unpack"

/-- All sparse-layout data lines in order: the collected
(raw label, topic, share) triples, the stripped labels, and the total
number of (topic, share) pairs (the source's topics list length, which it
uses as the matrix's topic dimension). -/
def parse_sparse_lines :
    List String → Except String (List (String × Int × ℚ) × List String × Nat)
  | [] => Except.ok ([], [], 0)
  | line :: rest =>
      match parse_doc_topics_line line with
      | Except.error e => Except.error e
      | Except.ok (rawLabel, stripped, pairs) =>
          match parse_sparse_lines rest with
          | Except.error e => Except.error e
          | Except.ok (triples, labels, np) =>
              Except.ok (pairs.map (fun p => (rawLabel, p.1, p.2)) ++ triples,
                stripped :: labels, pairs.length + np)

/-- Python string comparison: lexicographic by code point over the
character lists. -/
def charListLtb : List Char → List Char → Bool
  | [], [] => false
  | [], _ :: _ => true
  | _ :: _, [] => false
  | a :: as, b :: bs =>
      if a < b then true else if b < a then false else charListLtb as bs

def strLtb (a b : String) : Bool := charListLtb a.data b.data

/-- Python sorted(..., key=itemgetter(0, 1)) on the triples. -/
def tripleLE (a b : String × Int × ℚ) : Prop :=
  strLtb a.1 b.1 = true ∨ (a.1 = b.1 ∧ a.2.1 ≤ b.2.1)

instance : DecidableRel tripleLE := fun a b => by unfold tripleLE; infer_instance

/-- Python sorted() on the document labels. -/
def labelLE (a b : String) : Prop := strLtb b a = false

instance : DecidableRel labelLE := fun a b => by unfold labelLE; infer_instance

/-- The loop of the sparse branch: each triple's raw label is looked up in
the SORTED STRIPPED label list (a ValueError when the raw label carries a
path or extension), then the topic id indexes the matrix's topic axis of
size numPairs (negative numpy indices wrap). -/
def check_triples :
    List (String × Int × ℚ) → List String → Nat → Except String Unit
  | [], _, _ => Except.ok ()
  | tr :: rest, sl, np =>
      if sl.contains tr.1 = false then
        Except.error "ValueError: document label is not in list"
      else if tr.2.1 < -(np : Int) ∨ (np : Int) ≤ tr.2.1 then
        Except.error "IndexError: index out of bounds"
      else check_triples rest sl np

/-- A pandas DataFrame as the MALLET document-topics adapter returns it:
cells are the raw field strings, a missing cell (NaN) is none. -/
structure MalletDocTable where
  rows : List (List (Option String))
  index : List String
  cols : List String
deriving DecidableEq

/-- The sparse branch after the triples are collected: sort the triples by
(label, topic), sort the stripped labels, run the assignment loop, and
then evaluate the final DataFrame construction — which reads the global
name columns that is defined nowhere in the module, an unconditional
NameError. -/
def mallet_sparse_assemble (triples : List (String × Int × ℚ))
    (labels : List String) (numPairs : Nat) (_index : List String) :
    Except String MalletDocTable :=
  let sortedTriples := triples.insertionSort tripleLE
  let sortedLabels := labels.insertionSort labelLE
  match check_triples sortedTriples sortedLabels numPairs with
  | Except.error e => Except.error e
  | Except.ok _ => Except.error "NameError: name 'columns' is not defined"

/-- Embeds pd.read_table(file, sep=tab, header=None) plus the easy-branch
postprocessing: blank lines are skipped, the first row fixes the field
count (more fields later is a parse error, fewer pad with NaN), row labels
are the stripped column-1 labels, columns 0 and 1 are dropped, the topic
index labels are assigned (a length mismatch raises), and the table is
transposed. -/
def mallet_read_table_easy (lines : List String) (index : List String) :
    Except String MalletDocTable :=
  let rows := lines.filter (fun l => !(l == ""))
  match rows with
  | [] => Except.error "EmptyDataError: No columns to parse from file"
  | r0 :: _ =>
      let expected := (splitOnChar '\t' r0).length
      let split := rows.map (fun l => splitOnChar '\t' l)
      if split.any (fun p => expected < p.length) then
        Except.error "ParserError: Error tokenizing data"
      else if expected < 2 then
        Except.error "KeyError: 1"
      else if split.any (fun p => p.length < 2) then
        Except.error "TypeError: expected str, bytes or os.PathLike object"
      else if index.length ≠ expected - 2 then
        Except.error "ValueError: Length mismatch"
      else
        Except.ok
          { rows := (List.range (expected - 2)).map
              (fun j => split.map (fun p => p.get? (j + 2)))
            index := index
            cols := split.map (fun p => strip_label (p.getD 1 "")) }

/-- Embeds the MALLET document-topics adapter: the loop looks only at the
FIRST line; a line not starting (after lstrip) with the comment marker
sets easy_file_format to True and breaks, a comment first line parses the
remaining lines into triples; afterwards the easy_file_format value (the
caller's argument, unchanged by the comment branch) picks the branch. -/
def show_mallet_document_topics (lines : List String) (index : List String)
    (easy_file_format : Bool) : Except String MalletDocTable :=
  match lines with
  | [] =>
      if easy_file_format then mallet_read_table_easy lines index
      else mallet_sparse_assemble [] [] 0 index
  | l :: rest =>
      if strStartsWith (lstrip l) "#" then
        match parse_sparse_lines rest with
        | Except.error e => Except.error e
        | Except.ok (triples, labels, np) =>
            if easy_file_format then mallet_read_table_easy lines index
            else mallet_sparse_assemble triples labels np index
      else mallet_read_table_easy lines index

/-- C3 (code bug): on a well-formed sparse/commented document-topics file
the sparse branch never returns the claimed sorted table — after sorting
the triples and labels it evaluates a DataFrame construction that reads
the undefined global name columns and raises a NameError (and with path
or extension bearing labels it would already fail looking up the raw
label in the stripped label list). -/
theorem mallet_sparse_layout_bug :
    show_mallet_document_topics
      ["#doc name topic proportion",
       "0\tdoc2\t1\t0.7\t0\t0.3",
       "1\tdoc1\t0\t0.6\t1\t0.4"]
      ["t0", "t1"] false =
      Except.error "NameError: name 'columns' is not defined" := by
  decide

/-- C7 counterexample: layout choice is NOT a pure peek at the first
non-blank line. With the default easy_file_format=True the same
comment-headed file takes the easy pandas path (failing its field-count
check) instead of the sparse branch, so the result depends on the flag;
and a blank first line sends a file whose first non-blank line is a
comment down the easy path even with easy_file_format=False. -/
theorem mallet_layout_counterexample :
    show_mallet_document_topics
        ["#doc name topic proportion",
         "0\tdoc2\t1\t0.7\t0\t0.3",
         "1\tdoc1\t0\t0.6\t1\t0.4"] ["t0", "t1"] true ≠
      show_mallet_document_topics
        ["#doc name topic proportion",
         "0\tdoc2\t1\t0.7\t0\t0.3",
         "1\tdoc1\t0\t0.6\t1\t0.4"] ["t0", "t1"] false ∧
    show_mallet_document_topics
        ["#doc name topic proportion",
         "0\tdoc2\t1\t0.7\t0\t0.3",
         "1\tdoc1\t0\t0.6\t1\t0.4"] ["t0", "t1"] true =
      Except.error "ParserError: Error tokenizing data" ∧
    show_mallet_document_topics
        ["", "#doc name topic proportion", "0\tdoc1\t0\t0.5"] ["t0"] false =
      mallet_read_table_easy
        ["", "#doc name topic proportion", "0\tdoc1\t0\t0.5"] ["t0"] := by
  decide

/-- C7 amended: the sparse branch runs only when the FIRST line of the
file (after lstrip) starts with the comment marker AND the caller passed
easy_file_format=False; in every other case (no comment marker on the
first line, or the default easy_file_format=True) the easy pandas parse
of the whole file is used — though a comment first line is still parsed
into triples first, so its parse errors surface either way. -/
theorem mallet_layout_amended (l : String) (ls : List String)
    (index : List String)
    (triples : List (String × Int × ℚ)) (labels : List String) (np : Nat)
    (hhash : strStartsWith (lstrip l) "#" = true)
    (hparse : parse_sparse_lines ls = Except.ok (triples, labels, np)) :
    (∀ l2 : String, ∀ ls2 : List String, ∀ idx2 : List String, ∀ e2 : Bool,
      strStartsWith (lstrip l2) "#" = false →
      show_mallet_document_topics (l2 :: ls2) idx2 e2 =
        mallet_read_table_easy (l2 :: ls2) idx2) ∧
    show_mallet_document_topics (l :: ls) index true =
      mallet_read_table_easy (l :: ls) index ∧
    show_mallet_document_topics (l :: ls) index false =
      mallet_sparse_assemble triples labels np index := by
  refine ⟨?_, ?_, ?_⟩
  · intro l2 ls2 idx2 e2 hno
    simp only [show_mallet_document_topics]
    rw [hno]
    simp
  · simp only [show_mallet_document_topics]
    rw [hhash, hparse]
    simp
  · simp only [show_mallet_document_topics]
    rw [hhash, hparse]
    simp

theorem mallet_layout_amended_witness :
    (strStartsWith (lstrip "#doc name topic proportion") "#" = true ∧
      parse_sparse_lines ["0\tdoc1\t0\t1"] =
        Except.ok ([("doc1", 0, 1)], ["doc1"], 1)) ∧
    ((∀ l2 : String, ∀ ls2 : List String, ∀ idx2 : List String, ∀ e2 : Bool,
        strStartsWith (lstrip l2) "#" = false →
        show_mallet_document_topics (l2 :: ls2) idx2 e2 =
          mallet_read_table_easy (l2 :: ls2) idx2) ∧
      show_mallet_document_topics
          ["#doc name topic proportion", "0\tdoc1\t0\t1"] ["t0"] true =
        mallet_read_table_easy
          ["#doc name topic proportion", "0\tdoc1\t0\t1"] ["t0"] ∧
      show_mallet_document_topics
          ["#doc name topic proportion", "0\tdoc1\t0\t1"] ["t0"] false =
        mallet_sparse_assemble [("doc1", 0, 1)] ["doc1"] 1 ["t0"]) :=
  ⟨⟨by decide, by decide⟩,
    mallet_layout_amended "#doc name topic proportion" ["0\tdoc1\t0\t1"]
      ["t0"] [("doc1", 0, 1)] ["doc1"] 1 (by decide) (by decide)⟩

/-! ## Document-topic tables and the show_document_topics dispatch -/

/-- A pandas DataFrame of numeric proportions. -/
structure QDocTable where
  rows : List (List ℚ)
  index : List String
  cols : List String
deriving DecidableEq

/-- Embeds the lda document-topics adapter:
pd.DataFrame(model.doc_topic_, index=document_labels, columns=index).T —
the transpose of the D × T array, rows labelled by the joined key strings,
columns by the caller's document labels. -/
def show_lda_document_topics (doc_topic : List (List ℚ))
    (document_labels : List String) (index : List String) : QDocTable :=
  { rows := (List.range index.length).map
      (fun t => doc_topic.map (fun row => row.getD t 0))
    index := index
    cols := document_labels }

/-- The functional model of the numpy array document_topics after the
gensim adapter's write loop: start from np.zeros and, for the document at
position n, set cell (topic, n) for every (topic, proportion) pair
returned by model.get_document_topics for that document. -/
def gensim_doc_topics_fun (doc2bow : List (List (Nat × Nat)))
    (m : GensimModelE) : Nat → Nat → ℚ :=
  doc2bow.enum.foldl
    (fun g p =>
      (m.get_document_topics p.2).foldl
        (fun g2 dd => fun t2 n2 => if t2 = dd.1 ∧ n2 = p.1 then dd.2 else g2 t2 n2) g)
    (fun _ _ => 0)

/-- Embeds the gensim document-topics adapter:
pd.DataFrame(document_topics, index=index, columns=document_labels) where
document_topics is the num_topics × len(document_labels) array filled by
the write loop. -/
def show_gensim_document_topics (doc2bow : List (List (Nat × Nat)))
    (m : GensimModelE) (document_labels : List String) (index : List String) :
    QDocTable :=
  { rows := (List.range m.num_topics).map
      (fun t => (List.range document_labels.length).map
        (fun d => gensim_doc_topics_fun doc2bow m t d))
    index := index
    cols := document_labels }

/-- The two DataFrame shapes the document-topics dispatch can return. -/
inductive DocTopicsOut
  | qtable (t : QDocTable)
  | mtable (t : MalletDocTable)
deriving DecidableEq

/-- Embeds the show_document_topics dispatch: the row labels are joined
key strings built from the topics table, then the isinstance checks route
exactly as in show_topics; nothing raises on an ambiguous or empty
argument combination — the final implicit branch returns None. -/
def show_document_topics (topics : TopicTable) (model : Option ModelArg)
    (document_labels : List String) (doc_topics_file : Option (List String))
    (doc2bow : List (List (Nat × Nat))) (num_keys : Nat)
    (easy_file_format : Bool) : Except String (Option DocTopicsOut) :=
  let index := topics.rows.map
    (fun keys => String.intercalate " " (keys.take num_keys))
  match model with
  | some (ModelArg.lda _ doc_topic) =>
      Except.ok (some (DocTopicsOut.qtable
        (show_lda_document_topics doc_topic document_labels index)))
  | some (ModelArg.gensim m) =>
      Except.ok (some (DocTopicsOut.qtable
        (show_gensim_document_topics doc2bow m document_labels index)))
  | none =>
      match doc_topics_file with
      | some lines =>
          match show_mallet_document_topics lines index easy_file_format with
          | Except.error e => Except.error e
          | Except.ok t => Except.ok (some (DocTopicsOut.mtable t))
      | none => Except.ok none

/-- The last write wins in a sparse distribution, with a fallback. -/
def lookupProp (dist : List (Nat × ℚ)) (t : Nat) (fallback : ℚ) : ℚ :=
  match dist.find? (fun q => q.1 == t) with
  | some q => q.2
  | none => fallback

theorem gensim_inner_foldl (dist : List (Nat × ℚ)) (g : Nat → Nat → ℚ)
    (n t d : Nat) :
    (dist.foldl
      (fun g2 dd => fun t2 n2 => if t2 = dd.1 ∧ n2 = n then dd.2 else g2 t2 n2) g) t d =
      if d = n then lookupProp dist.reverse t (g t d) else g t d := by
  induction dist using List.reverseRecOn with
  | nil => simp [lookupProp]
  | append_singleton ys q ih =>
    rw [List.foldl_append, List.foldl_cons, List.foldl_nil, List.reverse_append]
    simp only [List.reverse_cons, List.reverse_nil, List.nil_append,
      List.singleton_append]
    by_cases hd : d = n
    · by_cases ht : t = q.1
      · rw [if_pos ⟨ht, hd⟩, if_pos hd]
        unfold lookupProp
        rw [List.find?_cons_of_pos _ (by simp [ht])]
      · rw [if_neg (by tauto), ih, if_pos hd, if_pos hd]
        unfold lookupProp
        rw [List.find?_cons_of_neg _ (by simp [Ne.symm ht])]
    · rw [if_neg (by tauto), ih, if_neg hd, if_neg hd]

theorem gensim_outer_foldl (m : GensimModelE) :
    ∀ (l : List (List (Nat × Nat))) (i : Nat) (g : Nat → Nat → ℚ) (t d : Nat),
      ((List.enumFrom i l).foldl
        (fun g p =>
          (m.get_document_topics p.2).foldl
            (fun g2 dd => fun t2 n2 =>
              if t2 = dd.1 ∧ n2 = p.1 then dd.2 else g2 t2 n2) g) g) t d =
        if i ≤ d ∧ d < i + l.length then
          lookupProp (m.get_document_topics (l.getD (d - i) [])).reverse t (g t d)
        else g t d := by
  intro l
  induction l with
  | nil =>
    intro i g t d
    rw [if_neg (by simp only [List.length_nil, List.length_cons]; omega)]
    rfl
  | cons bow rest ih =>
    intro i g t d
    rw [List.enumFrom_cons, List.foldl_cons]
    rw [ih (i + 1)]
    rcases Nat.lt_trichotomy d i with hdi | hdi | hdi
    · rw [if_neg (by omega), if_neg (by omega), gensim_inner_foldl,
        if_neg (by omega)]
    · subst hdi
      rw [if_neg (by omega), if_pos (by simp only [List.length_nil, List.length_cons]; omega), gensim_inner_foldl,
        if_pos rfl, Nat.sub_self, List.getD_cons_zero]
    · by_cases hin : d < i + 1 + rest.length
      · rw [if_pos (by omega), if_pos (by simp only [List.length_nil, List.length_cons]; omega)]
        have hsub : d - i = (d - (i + 1)) + 1 := by omega
        rw [hsub, List.getD_cons_succ]
        have hbase : (rest.getD (d - (i + 1)) []) = rest.getD (d - (i + 1)) [] := rfl
        cases hfind : (m.get_document_topics (rest.getD (d - (i + 1)) [])).reverse.find?
            (fun q => q.1 == t) with
        | some q => unfold lookupProp; rw [hfind]
        | none =>
            unfold lookupProp
            rw [hfind, gensim_inner_foldl, if_neg (by omega)]
      · rw [if_neg (by omega), if_neg (by simp only [List.length_nil, List.length_cons]; omega), gensim_inner_foldl,
          if_neg (by omega)]

/-- C6: the gensim document-topics table has num_topics rows and one
column per caller-supplied document label, its columns are exactly the
caller's labels in order, and entry (t, d) is the proportion the model
returned for topic t on document d — 0 when the model's sparse reply
omits topic t. -/
theorem show_gensim_document_topics_spec (doc2bow : List (List (Nat × Nat)))
    (m : GensimModelE) (document_labels : List String) (index : List String)
    (hD : doc2bow.length = document_labels.length)
    (_hT : ∀ bow ∈ doc2bow, ∀ p ∈ m.get_document_topics bow, p.1 < m.num_topics)
    (hnodup : ∀ bow ∈ doc2bow, ((m.get_document_topics bow).map Prod.fst).Nodup) :
    (show_gensim_document_topics doc2bow m document_labels index).rows.length =
      m.num_topics ∧
    (∀ r ∈ (show_gensim_document_topics doc2bow m document_labels index).rows,
      r.length = document_labels.length) ∧
    (show_gensim_document_topics doc2bow m document_labels index).cols =
      document_labels ∧
    (∀ t, t < m.num_topics → ∀ d, d < document_labels.length →
      (∀ p ∈ m.get_document_topics (doc2bow.getD d []), p.1 = t →
        (((show_gensim_document_topics doc2bow m document_labels index).rows.getD
          t []).getD d 0) = p.2) ∧
      ((∀ p ∈ m.get_document_topics (doc2bow.getD d []), p.1 ≠ t) →
        (((show_gensim_document_topics doc2bow m document_labels index).rows.getD
          t []).getD d 0) = 0)) := by
  refine ⟨by simp [show_gensim_document_topics], ?_, rfl, ?_⟩
  · intro r hr
    simp only [show_gensim_document_topics, List.mem_map] at hr
    obtain ⟨t, ht, hrow⟩ := hr
    subst hrow
    simp
  · intro t ht d hd
    have hentry :
        (((show_gensim_document_topics doc2bow m document_labels index).rows.getD
          t []).getD d 0) = gensim_doc_topics_fun doc2bow m t d := by
      have ht2 : t < ((List.range m.num_topics).map
          (fun t => (List.range document_labels.length).map
            (fun d => gensim_doc_topics_fun doc2bow m t d))).length := by
        simpa using ht
      simp only [show_gensim_document_topics]
      rw [List.getD_eq_getElem _ _ ht2, List.getElem_map, List.getElem_range]
      have hd2 : d < ((List.range document_labels.length).map
          (fun d2 => gensim_doc_topics_fun doc2bow m t d2)).length := by
        simpa using hd
      rw [List.getD_eq_getElem _ _ hd2, List.getElem_map, List.getElem_range]
    have hfun : gensim_doc_topics_fun doc2bow m t d =
        lookupProp (m.get_document_topics (doc2bow.getD d [])).reverse t 0 := by
      unfold gensim_doc_topics_fun
      rw [show doc2bow.enum = List.enumFrom 0 doc2bow from rfl,
        gensim_outer_foldl m doc2bow 0 (fun _ _ => 0) t d,
        if_pos (by constructor <;> omega)]
      rfl
    rw [hentry, hfun]
    have hmem : doc2bow.getD d [] ∈ doc2bow := by
      rw [List.getD_eq_getElem _ _ (by omega : d < doc2bow.length)]
      exact List.getElem_mem _
    constructor
    · intro p hp hpt
      unfold lookupProp
      cases hfind : (m.get_document_topics (doc2bow.getD d [])).reverse.find?
          (fun q => q.1 == t) with
      | some q =>
          have hqmem : q ∈ m.get_document_topics (doc2bow.getD d []) :=
            List.mem_reverse.mp (List.mem_of_find?_eq_some hfind)
          have hqt : q.1 = t := by
            have := List.find?_some hfind
            simpa using this
          have hpq : p = q :=
            List.inj_on_of_nodup_map (hnodup _ hmem) hp hqmem (by rw [hpt, hqt])
          rw [← hpq]
      | none =>
          exfalso
          have hall := List.find?_eq_none.mp hfind
          have hpmem : p ∈ (m.get_document_topics (doc2bow.getD d [])).reverse :=
            List.mem_reverse.mpr hp
          exact absurd (by simpa using hpt) (by simpa using hall p hpmem)
    · intro hnone
      unfold lookupProp
      cases hfind : (m.get_document_topics (doc2bow.getD d [])).reverse.find?
          (fun q => q.1 == t) with
      | some q =>
          exfalso
          have hqmem : q ∈ m.get_document_topics (doc2bow.getD d []) :=
            List.mem_reverse.mp (List.mem_of_find?_eq_some hfind)
          have hqt : q.1 = t := by
            have := List.find?_some hfind
            simpa using this
          exact hnone q hqmem hqt
      | none => rfl

theorem show_gensim_document_topics_spec_witness :
    ((([[(0, 1)]] : List (List (Nat × Nat))).length = (["d1"] : List String).length) ∧
      (∀ bow ∈ ([[(0, 1)]] : List (List (Nat × Nat))),
        ∀ p ∈ (GensimModelE.mk 2 (fun _ => [])
          (fun bow2 => if bow2 = [(0, 1)] then [(1, 1)] else [])).get_document_topics bow,
          p.1 < 2) ∧
      (∀ bow ∈ ([[(0, 1)]] : List (List (Nat × Nat))),
        (((GensimModelE.mk 2 (fun _ => [])
          (fun bow2 => if bow2 = [(0, 1)] then [(1, 1)] else [])).get_document_topics
            bow).map Prod.fst).Nodup)) ∧
    ((show_gensim_document_topics [[(0, 1)]]
        (GensimModelE.mk 2 (fun _ => [])
          (fun bow2 => if bow2 = [(0, 1)] then [(1, 1)] else []))
        ["d1"] ["i0"]).rows.length = 2 ∧
      (∀ r ∈ (show_gensim_document_topics [[(0, 1)]]
        (GensimModelE.mk 2 (fun _ => [])
          (fun bow2 => if bow2 = [(0, 1)] then [(1, 1)] else []))
        ["d1"] ["i0"]).rows, r.length = (["d1"] : List String).length) ∧
      (show_gensim_document_topics [[(0, 1)]]
        (GensimModelE.mk 2 (fun _ => [])
          (fun bow2 => if bow2 = [(0, 1)] then [(1, 1)] else []))
        ["d1"] ["i0"]).cols = ["d1"] ∧
      (∀ t, t < 2 → ∀ d, d < (["d1"] : List String).length →
        (∀ p ∈ (GensimModelE.mk 2 (fun _ => [])
            (fun bow2 => if bow2 = [(0, 1)] then [(1, 1)] else [])).get_document_topics
              (([[(0, 1)]] : List (List (Nat × Nat))).getD d []), p.1 = t →
          (((show_gensim_document_topics [[(0, 1)]]
            (GensimModelE.mk 2 (fun _ => [])
              (fun bow2 => if bow2 = [(0, 1)] then [(1, 1)] else []))
            ["d1"] ["i0"]).rows.getD t []).getD d 0) = p.2) ∧
        ((∀ p ∈ (GensimModelE.mk 2 (fun _ => [])
            (fun bow2 => if bow2 = [(0, 1)] then [(1, 1)] else [])).get_document_topics
              (([[(0, 1)]] : List (List (Nat × Nat))).getD d []), p.1 ≠ t) →
          (((show_gensim_document_topics [[(0, 1)]]
            (GensimModelE.mk 2 (fun _ => [])
              (fun bow2 => if bow2 = [(0, 1)] then [(1, 1)] else []))
            ["d1"] ["i0"]).rows.getD t []).getD d 0) = 0))) :=
  ⟨⟨rfl, by decide, by decide⟩,
    show_gensim_document_topics_spec [[(0, 1)]]
      (GensimModelE.mk 2 (fun _ => [])
        (fun bow2 => if bow2 = [(0, 1)] then [(1, 1)] else []))
      ["d1"] ["i0"] rfl (by decide) (by decide)⟩

/-- C2 amended: the dispatch of both entry points raises no configuration
error. Supplying both a model and a file path behaves exactly as supplying
the model alone (the isinstance branch wins and the file path is ignored),
and supplying neither a model nor a file path returns None without
raising. -/
theorem dispatch_no_error (tw dt : List (List ℚ)) (gm : GensimModelE)
    (v : List String) (f : List String) (k : Nat) (topics : TopicTable)
    (labels : List String) (bow : List (List (Nat × Nat))) (e : Bool) :
    (show_topics (some (ModelArg.lda tw dt)) (some v) (some f) k =
      show_topics (some (ModelArg.lda tw dt)) (some v) none k) ∧
    (show_topics (some (ModelArg.gensim gm)) none (some f) k =
      show_topics (some (ModelArg.gensim gm)) none none k) ∧
    (show_topics none none none k = Except.ok none) ∧
    (show_document_topics topics (some (ModelArg.lda tw dt)) labels (some f)
        bow k e =
      show_document_topics topics (some (ModelArg.lda tw dt)) labels none
        bow k e) ∧
    (show_document_topics topics (some (ModelArg.gensim gm)) labels (some f)
        bow k e =
      show_document_topics topics (some (ModelArg.gensim gm)) labels none
        bow k e) ∧
    (show_document_topics topics none labels none bow k e = Except.ok none) :=
  ⟨rfl, rfl, rfl, rfl, rfl, rfl⟩

/-- C2 counterexample: supplying both an lda model and a topic-keys file
to show_topics returns the model's table (no error is raised, the file is
silently ignored), and supplying neither a model nor a file returns None
(no error either); likewise for show_document_topics. -/
theorem dispatch_counterexample :
    show_topics (some (ModelArg.lda [[1, 2]] [])) (some ["a", "b"])
        (some ["ignored"]) 1 =
      Except.ok (some { rows := [["b"]], index := ["Topic 0"], cols := ["Key 0"] }) ∧
    show_topics none none none 10 = Except.ok none ∧
    show_document_topics
        { rows := [["x", "y"]], index := ["Topic 0"], cols := ["Key 0", "Key 1"] }
        none ["d1"] none [] 3 true = Except.ok none := by
  refine ⟨by decide, rfl, rfl⟩

end Postprocessing
